import Mathlib

/-!
Shallow embedding of the gincoat `core` package (app.go): the bootstrap
sequencing (`Bootstrap`), listener startup (`Run`), route dispatch
(`handleRoute`), mode selection (`setAppMode`), hook attachment
(`integratePackages`, `useMiddlewares`) and host resolution
(`getHTTPSHost`). Effects of `Bootstrap` and `Run` are embedded as
explicit event traces in calling-path order; the environment is a
string-valued function; the engines' attached integration hooks are
lists of opaque hook identifiers.
-/

namespace Gincoat

/-- Go `strconv.ParseBool`: accepts exactly "1","t","T","true","TRUE","True"
(as `true`) and "0","f","F","false","FALSE","False" (as `false`);
anything else is a syntax error, embedded as `none`. On error Go returns
the zero value `false` alongside the error, which callers that discard
the error observe; that is the `Option.getD false` used in `run`. -/
def goParseBool (s : String) : Option Bool :=
  if s = "1" ∨ s = "t" ∨ s = "T" ∨ s = "true" ∨ s = "TRUE" ∨ s = "True" then
    some true
  else if s = "0" ∨ s = "f" ∨ s = "F" ∨ s = "false" ∨ s = "FALSE" ∨ s = "False" then
    some false
  else
    none

/-- The process environment as seen through `env.Get`: a total map from
variable names to string values, with "" for unset variables (Go's
`os.Getenv` convention). -/
def EnvMap : Type := String → String

/-- `getHTTPSHost` from app.go: the HTTPS host variable if non-empty,
else the HTTP host variable if non-empty, else "localhost". -/
def getHTTPSHost (env : EnvMap) : String :=
  let host := env "APP_HTTPS_HOST"
  let host := if host = "" then env "APP_HTTP_HOST" else host
  let host := if host = "" then "localhost" else host
  host

/-- The gin run modes selected by `setAppMode`. -/
inductive GinMode
  | debug
  | test
  | release
deriving DecidableEq, Repr

/-- `setAppMode` from app.go: reads `MODE` and selects release, test or
(for everything else, including unset) debug. The argument is the value
of the `MODE` environment variable. -/
def setAppMode (mode : String) : GinMode :=
  if mode = "release" then GinMode.release
  else if mode = "test" then GinMode.test
  else GinMode.debug

/-- The side effects of `Bootstrap`, in calling order. -/
inductive BootEvent
  | setMode (m : GinMode)
  | envLoad
  | pkgIntegratorNew
  | middlewaresEngineNew
  | routingNew
  | databaseNew
  | integrateDatabase
deriving DecidableEq, Repr

/-- `Bootstrap` from app.go as its effect trace: set the app mode, load
env vars, initiate the package integrator, the middlewares engine, the
routing engine and the db connection, then register the database driver
as a package integration. -/
def bootstrap (modeVar : String) : List BootEvent :=
  [BootEvent.setMode (setAppMode modeVar),
   BootEvent.envLoad,
   BootEvent.pkgIntegratorNew,
   BootEvent.middlewaresEngineNew,
   BootEvent.routingNew,
   BootEvent.databaseNew,
   BootEvent.integrateDatabase]

/-- The HTTP-method registration entry points of the gin engine used by
`handleRoute`. -/
inductive HTTPMethod
  | GET
  | POST
  | DELETE
  | PATCH
  | PUT
  | OPTIONS
  | HEAD
deriving DecidableEq, Repr

/-- A route from the routing table: method string, path, and an opaque
handler chain (handlers identified by numbers). -/
structure Route where
  method : String
  path : String
  handlers : List Nat
deriving DecidableEq, Repr

/-- One registration call performed on a gin engine: which entry point
was invoked, with which path and handler chain. -/
structure RegistrationCall where
  method : HTTPMethod
  path : String
  handlers : List Nat
deriving DecidableEq, Repr

/-- `handleRoute` from app.go: a switch on the route's method string,
each recognized case performing exactly one registration call on the
engine; no default case. Embedded as the list of registration calls
performed (Go's string switch is sequential equality testing). -/
def handleRoute (route : Route) : List RegistrationCall :=
  if route.method = "get" then [⟨HTTPMethod.GET, route.path, route.handlers⟩]
  else if route.method = "post" then [⟨HTTPMethod.POST, route.path, route.handlers⟩]
  else if route.method = "delete" then [⟨HTTPMethod.DELETE, route.path, route.handlers⟩]
  else if route.method = "patch" then [⟨HTTPMethod.PATCH, route.path, route.handlers⟩]
  else if route.method = "put" then [⟨HTTPMethod.PUT, route.path, route.handlers⟩]
  else if route.method = "options" then [⟨HTTPMethod.OPTIONS, route.path, route.handlers⟩]
  else if route.method = "head" then [⟨HTTPMethod.HEAD, route.path, route.handlers⟩]
  else []

/-- `registerRoutes` from app.go: dispatches every route of the router
through `handleRoute`; the registration calls performed, in order. -/
def registerRoutes (routes : List Route) : List RegistrationCall :=
  routes.flatMap handleRoute

/-- `integratePackages` from app.go: `engine.Use(h)` for every hook `h`
in the package integrator registry, in order. The engine is its list of
attached integration hooks; `Use` appends. -/
def integratePackages (integrations : List Nat) (engine : List Nat) : List Nat :=
  integrations.foldl (fun e h => e ++ [h]) engine

/-- `useMiddlewares` from app.go: `engine.Use(m)` for every middleware
in the middlewares engine registry, in order. -/
def useMiddlewares (middlewares : List Nat) (engine : List Nat) : List Nat :=
  middlewares.foldl (fun e h => e ++ [h]) engine

/-- The three gin engines `Run` touches. -/
inductive EngineTag
  | https
  | http
  | redirect
deriving DecidableEq, Repr

/-- The side effects of `Run`, in calling-path order. `startTLS` records
the `go ... RunTLS(addr, cert, key)` launch (background = true);
`startListen` records a synchronous `engine.Run(addr)`. -/
inductive RunEvent
  | logSetup
  | integrate (e : EngineTag)
  | attachRoutes (e : EngineTag)
  | startTLS (addr cert key : String) (background : Bool)
  | useSecureMiddleware
  | startListen (e : EngineTag) (addr : String)
deriving DecidableEq, Repr

/-- Whether an event runs on a background execution path (a goroutine)
rather than the calling path. -/
def eventBackground : RunEvent → Bool
  | RunEvent.startTLS _ _ _ bg => bg
  | _ => false

/-- The port-number fallback at the top of `Run`: empty string becomes
"80". -/
def effectivePort (portNumber : String) : String :=
  if portNumber = "" then "80" else portNumber

/-- Recognizes the `integrate` event for a given engine. -/
def isIntegrate (t : EngineTag) : RunEvent → Bool
  | RunEvent.integrate e => e = t
  | _ => false

/-- The observable outcome of `Run`: its effect trace plus the final
lists of integration hooks attached to the https and http engines
(both start with no integration hooks attached). -/
structure RunResult where
  events : List RunEvent
  httpsEngine : List Nat
  httpEngine : List Nat
deriving DecidableEq, Repr

/-- `Run` from app.go: fall back to port "80", set up logging, parse the
two boolean flags discarding parse errors, then (if HTTPS is on)
integrate packages twice into the https engine, attach routes and launch
`RunTLS` on `getHTTPSHost() + ":443"` in a goroutine; (if HTTPS and
redirect are on) install the secure middleware and run the redirect
engine synchronously on the port; finally always integrate packages
twice into the http engine, attach routes and run it synchronously on
the port. `integrations` is the package integrator registry contents. -/
def run (integrations : List Nat) (env : EnvMap) (portNumber : String) : RunResult :=
  let port := effectivePort portNumber
  let httpsOn := (goParseBool (env "APP_HTTPS_ON")).getD false
  let redirectToHTTPS := (goParseBool (env "APP_REDIRECT_HTTP_TO_HTTPS")).getD false
  let tlsEvents : List RunEvent :=
    if httpsOn then
      [RunEvent.integrate EngineTag.https,
       RunEvent.integrate EngineTag.https,
       RunEvent.attachRoutes EngineTag.https,
       RunEvent.startTLS (getHTTPSHost env ++ ":443")
         (env "APP_HTTPS_CERT_FILE_PATH") (env "APP_HTTPS_KEY_FILE_PATH") true]
    else []
  let httpsEngine :=
    if httpsOn then integratePackages integrations (integratePackages integrations []) else []
  let redirectEvents : List RunEvent :=
    if httpsOn && redirectToHTTPS then
      [RunEvent.useSecureMiddleware,
       RunEvent.startListen EngineTag.redirect (":" ++ port)]
    else []
  let httpEngine := integratePackages integrations (integratePackages integrations [])
  { events :=
      RunEvent.logSetup ::
        (tlsEvents ++ redirectEvents ++
          [RunEvent.integrate EngineTag.http,
           RunEvent.integrate EngineTag.http,
           RunEvent.attachRoutes EngineTag.http,
           RunEvent.startListen EngineTag.http (":" ++ port)])
    httpsEngine := httpsEngine
    httpEngine := httpEngine }

/-- The listener start attempts of a trace, in order: engine tag,
address, and whether the start is on a background path. -/
def listenerStarts : List RunEvent → List (EngineTag × String × Bool)
  | [] => []
  | RunEvent.startTLS addr _ _ bg :: rest => (EngineTag.https, addr, bg) :: listenerStarts rest
  | RunEvent.startListen e addr :: rest => (e, addr, false) :: listenerStarts rest
  | _ :: rest => listenerStarts rest

/-- What a gin handler does with the rest of the chain. `earlyReturn` is
a plain `return` from the handler body (no `c.Next()`, no abort). -/
inductive HandlerAct
  | callNext
  | earlyReturn
  | abortChain
deriving DecidableEq, Repr

/-- Modelled from the spec: the gin engine (an external collaborator not
under src/) runs a request's handler chain in order, and a handler that
returns without aborting leaves the rest of the chain to run; only an
abort stops it. -/
def chainContinues (a : HandlerAct) : Bool :=
  match a with
  | HandlerAct.abortChain => false
  | _ => true

/-- The secure-middleware handler installed on the redirect engine in
`Run`: calls `secureMiddleware.Process`; if it returned an error, the
handler just returns (the error is discarded, nothing is surfaced);
otherwise it calls `c.Next()`. The argument is the `Process` result for
this one request; the returned pair is (what the handler did with the
chain, the error it surfaced). -/
def secureFunc (processErr : Option String) : HandlerAct × Option String :=
  match processErr with
  | some _ => (HandlerAct.earlyReturn, none)
  | none => (HandlerAct.callNext, none)

/-- A concrete environment with both HTTPS flags set to "true" and
everything else unset. -/
def envBoth : EnvMap := fun k =>
  if k = "APP_HTTPS_ON" then "true"
  else if k = "APP_REDIRECT_HTTP_TO_HTTPS" then "true"
  else ""

theorem integratePackages_eq (integrations engine : List Nat) :
    integratePackages integrations engine = engine ++ integrations := by
  induction integrations generalizing engine with
  | nil => simp [integratePackages]
  | cons h t ih =>
    show integratePackages t (engine ++ [h]) = engine ++ h :: t
    rw [ih]
    simp

/-- C3: `getHTTPSHost` returns the `APP_HTTPS_HOST` value when that is
non-empty, else the `APP_HTTP_HOST` value when that is non-empty, else
the literal "localhost"; and it is a pure function of those two
configuration values (no side effects, same inputs give same output). -/
theorem getHTTPSHost_precedence (env : EnvMap) :
    (env "APP_HTTPS_HOST" ≠ "" → getHTTPSHost env = env "APP_HTTPS_HOST") ∧
    (env "APP_HTTPS_HOST" = "" → env "APP_HTTP_HOST" ≠ "" →
      getHTTPSHost env = env "APP_HTTP_HOST") ∧
    (env "APP_HTTPS_HOST" = "" → env "APP_HTTP_HOST" = "" →
      getHTTPSHost env = "localhost") ∧
    (∀ env2 : EnvMap, env "APP_HTTPS_HOST" = env2 "APP_HTTPS_HOST" →
      env "APP_HTTP_HOST" = env2 "APP_HTTP_HOST" →
      getHTTPSHost env = getHTTPSHost env2) := by
  refine ⟨?_, ?_, ?_, ?_⟩
  · intro h; simp [getHTTPSHost, h]
  · intro h1 h2; simp [getHTTPSHost, h1, h2]
  · intro h1 h2; simp [getHTTPSHost, h1, h2]
  · intro env2 h1 h2; simp [getHTTPSHost, h1, h2]

theorem getHTTPSHost_precedence_w :
    getHTTPSHost (fun k => if k = "APP_HTTPS_HOST" then "secure.example" else "")
      = "secure.example" :=
  (getHTTPSHost_precedence _).1 (by simp)

/-- C4: for each of the seven recognized method strings, `handleRoute`
performs exactly one registration call on the engine, at the
correspondingly-named entry point, with the route's path and handler
chain. -/
theorem handleRoute_dispatch (p : String) (hs : List Nat) :
    handleRoute ⟨"get", p, hs⟩ = [⟨HTTPMethod.GET, p, hs⟩] ∧
    handleRoute ⟨"post", p, hs⟩ = [⟨HTTPMethod.POST, p, hs⟩] ∧
    handleRoute ⟨"delete", p, hs⟩ = [⟨HTTPMethod.DELETE, p, hs⟩] ∧
    handleRoute ⟨"patch", p, hs⟩ = [⟨HTTPMethod.PATCH, p, hs⟩] ∧
    handleRoute ⟨"put", p, hs⟩ = [⟨HTTPMethod.PUT, p, hs⟩] ∧
    handleRoute ⟨"options", p, hs⟩ = [⟨HTTPMethod.OPTIONS, p, hs⟩] ∧
    handleRoute ⟨"head", p, hs⟩ = [⟨HTTPMethod.HEAD, p, hs⟩] := by
  refine ⟨rfl, rfl, rfl, rfl, rfl, rfl, rfl⟩

theorem handleRoute_dispatch_w :
    handleRoute ⟨"get", "/", [0]⟩ = [⟨HTTPMethod.GET, "/", [0]⟩] :=
  (handleRoute_dispatch "/" [0]).1

/-- C5: a route whose method string is not one of the seven recognized
lower-case strings (upper-case "GET" included) produces no registration
call and no error: `handleRoute` falls through the switch. -/
theorem handleRoute_unknown (r : Route)
    (h : r.method ∉ ["get", "post", "delete", "patch", "put", "options", "head"]) :
    handleRoute r = [] := by
  obtain ⟨m, p, hs⟩ := r
  simp only [List.mem_cons, List.mem_singleton, not_or] at h
  obtain ⟨h1, h2, h3, h4, h5, h6, h7⟩ := h
  simp [handleRoute, h1, h2, h3, h4, h5, h6, h7]

theorem handleRoute_unknown_w : handleRoute ⟨"GET", "/", [0]⟩ = [] :=
  handleRoute_unknown ⟨"GET", "/", [0]⟩ (by decide)

/-- C6: `Bootstrap` performs, in this fixed order: set the run mode from
`MODE` (only "release" and "test" select non-debug modes; anything else,
the empty/unset value included, gives debug), load env vars, initialize
the package integrator, the middlewares engine, the routing engine and
the database connection, then register the database handle as a package
integration. -/
theorem bootstrap_order (m : String) :
    bootstrap m =
      [BootEvent.setMode (setAppMode m),
       BootEvent.envLoad,
       BootEvent.pkgIntegratorNew,
       BootEvent.middlewaresEngineNew,
       BootEvent.routingNew,
       BootEvent.databaseNew,
       BootEvent.integrateDatabase] ∧
    (m ≠ "release" → m ≠ "test" → setAppMode m = GinMode.debug) ∧
    setAppMode "release" = GinMode.release ∧
    setAppMode "test" = GinMode.test := by
  refine ⟨rfl, ?_, rfl, rfl⟩
  intro h1 h2
  simp [setAppMode, h1, h2]

theorem bootstrap_order_w : setAppMode "" = GinMode.debug :=
  (bootstrap_order "").2.1 (by decide) (by decide)

/-- C2: when the secure middleware's `Process` call returns an error for
a request, the handler returns early for that request without calling
`Next`, surfaces no error, and does not abort, so under the gin chain
rule the rest of the handler chain still runs; the outcome is a pure
function of that one request's `Process` result, so no other request is
affected. -/
theorem secureFunc_error_silent (e : String) :
    secureFunc (some e) = (HandlerAct.earlyReturn, none) ∧
    chainContinues (secureFunc (some e)).1 = true ∧
    (secureFunc (some e)).1 ≠ HandlerAct.abortChain := by
  refine ⟨rfl, rfl, by simp [secureFunc]⟩

theorem secureFunc_error_silent_w :
    secureFunc (some "ssl redirect performed") = (HandlerAct.earlyReturn, none) :=
  (secureFunc_error_silent "ssl redirect performed").1

/-- C1: when both `APP_HTTPS_ON` and `APP_REDIRECT_HTTP_TO_HTTPS` parse
to true, `Run(portNumber)` attempts exactly three listener starts, in
order: TLS on `getHTTPSHost() + ":443"` (port 443, on a background
path), the redirect engine on the supplied port, and the plaintext
engine on the supplied port (the supplied port being `portNumber`
itself whenever it is non-empty). -/
theorem run_three_listeners (I : List Nat) (env : EnvMap) (p : String)
    (h1 : goParseBool (env "APP_HTTPS_ON") = some true)
    (h2 : goParseBool (env "APP_REDIRECT_HTTP_TO_HTTPS") = some true) :
    listenerStarts (run I env p).events =
      [(EngineTag.https, getHTTPSHost env ++ ":443", true),
       (EngineTag.redirect, ":" ++ effectivePort p, false),
       (EngineTag.http, ":" ++ effectivePort p, false)] ∧
    (p ≠ "" → effectivePort p = p) := by
  constructor
  · simp [run, h1, h2, listenerStarts]
  · intro hp; simp [effectivePort, hp]

theorem run_three_listeners_w :
    listenerStarts (run [] envBoth "3000").events =
      [(EngineTag.https, "localhost:443", true),
       (EngineTag.redirect, ":3000", false),
       (EngineTag.http, ":3000", false)] := by
  have h := (run_three_listeners [] envBoth "3000" (by rfl) (by rfl)).1
  simpa [envBoth, getHTTPSHost, effectivePort] using h

/-- C7: in every `Run` invocation the plaintext branch performs the
`integratePackages` call twice on the http engine, and whenever the TLS
branch is taken (its guard, the discarded-error parse of
`APP_HTTPS_ON`, is true) it likewise performs it twice on the https
engine; so each hook registered in the package integrator registry ends
up attached to each such engine twice per registration (no
deduplication: the engine ends as the registry list appended to
itself). -/
theorem run_integrates_twice (I : List Nat) (env : EnvMap) (p : String) :
    (run I env p).events.countP (isIntegrate EngineTag.http) = 2 ∧
    (run I env p).httpEngine = I ++ I ∧
    (∀ h : Nat, (run I env p).httpEngine.count h = 2 * I.count h) ∧
    ((goParseBool (env "APP_HTTPS_ON")).getD false = true →
      (run I env p).events.countP (isIntegrate EngineTag.https) = 2 ∧
      (run I env p).httpsEngine = I ++ I ∧
      ∀ h : Nat, (run I env p).httpsEngine.count h = 2 * I.count h) := by
  cases hOn : (goParseBool (env "APP_HTTPS_ON")).getD false <;>
    cases hRe : (goParseBool (env "APP_REDIRECT_HTTP_TO_HTTPS")).getD false <;>
      refine ⟨?_, ?_, fun h => ?_, fun hTaken => ⟨?_, ?_, fun h => ?_⟩⟩ <;>
        simp_all [run, isIntegrate, integratePackages_eq, List.count_append,
          List.countP_cons, List.countP_append] <;>
        omega

theorem run_integrates_twice_w :
    (run [5] (fun _ => "") "8080").events.countP (isIntegrate EngineTag.http) = 2 ∧
    (run [5] (fun _ => "") "8080").httpEngine = [5, 5] ∧
    (run [5] envBoth "8080").events.countP (isIntegrate EngineTag.http) = 2 ∧
    (run [5] envBoth "8080").httpsEngine = [5, 5] := by
  have hOff := run_integrates_twice [5] (fun _ => "") "8080"
  have hOn := run_integrates_twice [5] envBoth "8080"
  exact ⟨hOff.1, by rw [hOff.2.1]; rfl, hOn.1,
    by rw [(hOn.2.2.2 (by rfl)).2.1]; rfl⟩

/-- C8: when `APP_HTTPS_ON` does not parse as a boolean (for example the
empty string), the discarded-error parse yields false, so neither the
TLS branch nor the redirect branch runs: the trace is exactly log setup,
two http-engine integrations, route attachment and the plaintext start,
and the https engine gets no hooks. -/
theorem run_unparsable_https_off (I : List Nat) (env : EnvMap) (p : String)
    (h : goParseBool (env "APP_HTTPS_ON") = none) :
    (goParseBool (env "APP_HTTPS_ON")).getD false = false ∧
    (run I env p).events =
      [RunEvent.logSetup,
       RunEvent.integrate EngineTag.http,
       RunEvent.integrate EngineTag.http,
       RunEvent.attachRoutes EngineTag.http,
       RunEvent.startListen EngineTag.http (":" ++ effectivePort p)] ∧
    (run I env p).httpsEngine = [] := by
  refine ⟨by simp [h], by simp [run, h], by simp [run, h]⟩

theorem run_unparsable_https_off_w :
    (run [] (fun _ => "") "8080").events =
      [RunEvent.logSetup,
       RunEvent.integrate EngineTag.http,
       RunEvent.integrate EngineTag.http,
       RunEvent.attachRoutes EngineTag.http,
       RunEvent.startListen EngineTag.http ":8080"] := by
  have h := (run_unparsable_https_off [] (fun _ => "") "8080" (by rfl)).2.1
  simpa [effectivePort] using h

/-- C9: `Run("")` falls back to port "80": the plaintext listener, the
final event of every trace, binds address ":80" whatever the rest of
the environment says. -/
theorem run_empty_port_binds_80 (I : List Nat) (env : EnvMap) :
    effectivePort "" = "80" ∧
    (run I env "").events.getLast? =
      some (RunEvent.startListen EngineTag.http ":80") := by
  constructor
  · rfl
  · cases hOn : (goParseBool (env "APP_HTTPS_ON")).getD false <;>
      cases hRe : (goParseBool (env "APP_REDIRECT_HTTP_TO_HTTPS")).getD false <;>
      simp [run, hOn, hRe, effectivePort]

theorem run_empty_port_binds_80_w :
    (run [] (fun _ => "t") "").events.getLast? =
      some (RunEvent.startListen EngineTag.http ":80") :=
  (run_empty_port_binds_80 [] (fun _ => "t")).2

/-- C10: when both flags parse to true, the redirect listener start is a
synchronous event on the calling path (not a background launch), it
occurs in the trace, and every plaintext listener start occurs strictly
after every redirect listener start: on the calling path the plaintext
start is reached only once the redirect start has been passed. -/
theorem run_redirect_precedes_plain (I : List Nat) (env : EnvMap) (p : String)
    (h1 : goParseBool (env "APP_HTTPS_ON") = some true)
    (h2 : goParseBool (env "APP_REDIRECT_HTTP_TO_HTTPS") = some true) :
    eventBackground (RunEvent.startListen EngineTag.redirect (":" ++ effectivePort p)) = false ∧
    (run I env p).events.get? 6 =
      some (RunEvent.startListen EngineTag.redirect (":" ++ effectivePort p)) ∧
    (run I env p).events.get? 10 =
      some (RunEvent.startListen EngineTag.http (":" ++ effectivePort p)) ∧
    (∀ k a, (run I env p).events.get? k = some (RunEvent.startListen EngineTag.http a) →
      ∀ l b, (run I env p).events.get? l = some (RunEvent.startListen EngineTag.redirect b) →
        l < k) := by
  have hev : (run I env p).events =
      [RunEvent.logSetup,
       RunEvent.integrate EngineTag.https,
       RunEvent.integrate EngineTag.https,
       RunEvent.attachRoutes EngineTag.https,
       RunEvent.startTLS (getHTTPSHost env ++ ":443")
         (env "APP_HTTPS_CERT_FILE_PATH") (env "APP_HTTPS_KEY_FILE_PATH") true,
       RunEvent.useSecureMiddleware,
       RunEvent.startListen EngineTag.redirect (":" ++ effectivePort p),
       RunEvent.integrate EngineTag.http,
       RunEvent.integrate EngineTag.http,
       RunEvent.attachRoutes EngineTag.http,
       RunEvent.startListen EngineTag.http (":" ++ effectivePort p)] := by
    simp [run, h1, h2]
  refine ⟨rfl, by rw [hev]; rfl, by rw [hev]; rfl, ?_⟩
  intro k a hk l b hl
  rw [hev] at hk hl
  have hkb : k < 11 := by
    by_contra hh
    push_neg at hh
    rw [List.get?_eq_none.mpr (by simpa using hh)] at hk
    exact Option.noConfusion hk
  have hlb : l < 11 := by
    by_contra hh
    push_neg at hh
    rw [List.get?_eq_none.mpr (by simpa using hh)] at hl
    exact Option.noConfusion hl
  interval_cases k <;> interval_cases l <;> simp_all

theorem run_redirect_precedes_plain_w :
    (run [] envBoth "3000").events.get? 6 =
      some (RunEvent.startListen EngineTag.redirect (":" ++ effectivePort "3000")) ∧
    (run [] envBoth "3000").events.get? 10 =
      some (RunEvent.startListen EngineTag.http (":" ++ effectivePort "3000")) := by
  have h := run_redirect_precedes_plain [] envBoth "3000" (by rfl) (by rfl)
  exact ⟨h.2.1, h.2.2.1⟩

end Gincoat
